import Mathlib

/-!
Shallow embedding of the Multi-Asset-Portfolio-tracker core services
(`src/backend/services/portfolio_service.py`,
`src/backend/services/portfolio_refresh_service.py`,
`src/backend/services/screening_service.py`) and proofs of the spec claims.

Python floats appear only as exact values carried through arithmetic the
claims quantify over, so they are modelled as rationals; Python datetimes
are modelled as natural-number timestamps (only their order is used).
-/

namespace Portfolio

/-- `Security` from `portfolio_service.py` (dataclass).  `isin` is
`Optional[str]`; `last_updated` is `Optional[datetime]` (post-init fills
`now`, kept as `Option` because `_merge_securities` guards on it). -/
structure Security where
  symbol : String
  name : String
  quantity : ℚ
  avg_price : ℚ
  current_price : ℚ
  market_value : ℚ
  pnl : ℚ
  pnl_percentage : ℚ
  security_type : String
  isin : Option String
  source : String
  last_updated : Option ℕ
  deriving Repr, DecidableEq

/-- Python truthiness of the `Optional[str]` field `isin`:
`None` and the empty string are falsy. -/
def isinTruthy : Option String → Bool
  | none => false
  | some s => s ≠ ""

/-- The grouping key of `_deduplicate_securities`:
`security.isin if security.isin else security.symbol`. -/
def secKey (s : Security) : String :=
  match s.isin with
  | some i => if i = "" then s.symbol else i
  | none => s.symbol

/-- `priority.get(source, 0)` with `priority = {'FYERS': 3, 'CAS': 2, 'MANUAL': 1}`
in `_merge_securities`. -/
def sourcePriority (source : String) : ℕ :=
  if source = "FYERS" then 3
  else if source = "CAS" then 2
  else if source = "MANUAL" then 1
  else 0

/-- `_merge_securities(existing, new)`: returns `new` when its priority is
strictly higher; otherwise returns `new` when both timestamps are present
and `new`'s is strictly later (note: the code does not check that the
priorities are equal before this recency test); otherwise `existing`. -/
def mergeSecurities (existing new : Security) : Security :=
  if sourcePriority new.source > sourcePriority existing.source then new
  else
    match new.last_updated, existing.last_updated with
    | some tn, some te => if tn > te then new else existing
    | _, _ => existing

/-- One step of the `grouped` dict update in `_deduplicate_securities`:
Python dicts preserve insertion order and re-assignment keeps position. -/
def groupInsert (acc : List (String × Security)) (s : Security) :
    List (String × Security) :=
  if acc.any (fun p => p.1 = secKey s) then
    acc.map (fun p => if p.1 = secKey s then (p.1, mergeSecurities p.2 s) else p)
  else
    acc ++ [(secKey s, s)]

/-- `_deduplicate_securities`: fold the input into the ordered dict and
return `list(grouped.values())`. -/
def deduplicateSecurities (securities : List Security) : List Security :=
  (securities.foldl groupInsert []).map Prod.snd

/-- A raw numeric field of an input record, as seen by
`float(item.get(k, 0))` in the converters: `absent` (the `.get` default `0`
is used), `val q` (a value `float()` converts to `q`), or `bad` (a value on
which `float()` raises, e.g. a non-numeric string). -/
inductive RawField where
  | absent : RawField
  | val : ℚ → RawField
  | bad : RawField
  deriving Repr, DecidableEq

/-- `float(item.get(k, 0))`: `none` models the exception propagating out of
the `Security(...)` call. -/
def toFloat : RawField → Option ℚ
  | .absent => some 0
  | .val q => some q
  | .bad => none

/-- The raw per-source record a converter reads.  String fields default to
`''` (`item.get('symbol', '')`), `security_type` to `'STOCK'`, `isin` to
`None` (plain `item.get('isin')`). -/
structure RawRecord where
  symbol : Option String
  name : Option String
  quantity : RawField
  avg_price : RawField
  current_price : RawField
  market_value : RawField
  pnl : RawField
  pnl_percentage : RawField
  security_type : Option String
  isin : Option String
  deriving Repr, DecidableEq

/-- The shared body of `_convert_fyers_to_security`,
`_convert_cas_to_security` and `_convert_manual_to_security`: only the
`source` tag differs.  Any `float()` failure is caught and `None` is
returned; `now` is the `datetime.now()` that `__post_init__` fills into
`last_updated`. -/
def convertToSecurity (source : String) (now : ℕ) (item : RawRecord) :
    Option Security := do
  let quantity ← toFloat item.quantity
  let avg_price ← toFloat item.avg_price
  let current_price ← toFloat item.current_price
  let market_value ← toFloat item.market_value
  let pnl ← toFloat item.pnl
  let pnl_percentage ← toFloat item.pnl_percentage
  some { symbol := item.symbol.getD ""
         name := item.name.getD ""
         quantity, avg_price, current_price, market_value, pnl, pnl_percentage
         security_type := item.security_type.getD "STOCK"
         isin := item.isin
         source
         last_updated := some now }

/-- `_convert_fyers_to_security`. -/
def convertFyersToSecurity (now : ℕ) (item : RawRecord) : Option Security :=
  convertToSecurity "FYERS" now item

/-- `_convert_manual_to_security`. -/
def convertManualToSecurity (now : ℕ) (item : RawRecord) : Option Security :=
  convertToSecurity "MANUAL" now item

end Portfolio

namespace Refresh

/-- A holding dict inside a stored portfolio, as read and mutated by
`_refresh_portfolio_prices`.  The dict keys the loop touches are modelled
as always-present fields (no claim depends on a holding missing one). -/
structure Holding where
  symbol : String
  quantity : ℚ
  avg_price : ℚ
  current_price : ℚ
  current_value : ℚ
  total_pnl : ℚ
  pnl_percentage : ℚ
  last_updated : ℕ
  deriving Repr, DecidableEq

/-- A portfolio document in the `portfolios` collection. -/
structure StoredPortfolio where
  user_id : String
  holdings : List Holding
  total_value : ℚ
  total_pnl : ℚ
  last_refreshed : ℕ
  refresh_type : String
  deriving Repr, DecidableEq

/-- Python truthiness of `current_price` returned by `_get_current_price`:
`None` and `0.0` are both falsy. -/
def priceTruthy : Option ℚ → Bool
  | none => false
  | some p => p ≠ 0

/-- The body of one iteration of the holdings loop in
`_refresh_portfolio_prices`, returning the holding as appended to
`updated_holdings` together with its contributions to `total_value` and
`total_pnl`.  The dict is mutated in place field by field; when
`avg_price > 0` but `quantity * avg_price = 0` the `pnl_percentage` line
raises `ZeroDivisionError`, the per-holding handler catches it, and the
already-mutated dict (fresh `current_price`, `current_value`, `total_pnl`;
stale `pnl_percentage`, `last_updated`) is what gets appended — and
`holding.get('current_value', 0)` in the handler reads the fresh value. -/
def refreshHoldingStep (now : ℕ) (price : Option ℚ) (h : Holding) :
    Holding × ℚ × ℚ :=
  if priceTruthy price then
    match price with
    | some p =>
      let cv := h.quantity * p
      let tp := cv - h.quantity * h.avg_price
      let h3 := { h with current_price := p, current_value := cv, total_pnl := tp }
      if h.avg_price > 0 then
        if h.quantity * h.avg_price = 0 then
          (h3, cv, tp)
        else
          ({ h3 with pnl_percentage := tp / (h.quantity * h.avg_price) * 100
                     last_updated := now }, cv, tp)
      else
        ({ h3 with pnl_percentage := 0, last_updated := now }, cv, tp)
    | none => (h, h.current_value, h.total_pnl)
  else
    (h, h.current_value, h.total_pnl)

/-- The refresh result dict of `_refresh_portfolio_prices`:
`{'success': True, ...}` on the normal path, `{'error': ...}` from the
outer exception handler. -/
inductive RefreshResult where
  | ok (holdings_updated : ℕ) (total_value total_pnl : ℚ) (last_refreshed : ℕ)
  | err (msg : String)
  deriving Repr, DecidableEq

/-- `result.get('success')` truthiness in `refresh_all_portfolios`. -/
def RefreshResult.isSuccess : RefreshResult → Bool
  | .ok _ _ _ _ => true
  | .err _ => false

/-- `result.get('error', 'Unknown error')`. -/
def RefreshResult.errMsg : RefreshResult → String
  | .ok _ _ _ _ => "Unknown error"
  | .err m => m

/-- The `portfolios` collection, keyed by `user_id`. -/
def Db := String → Option StoredPortfolio

/-- `_update_portfolio`: `update_one(..., upsert=True)` wrapped in a
catch-all `except` that only logs.  `storeOk` says whether the underlying
write succeeds; a failed write leaves the collection unchanged and raises
no error to the caller. -/
def updatePortfolioStore (storeOk : Bool) (db : Db) (user_id : String)
    (doc : StoredPortfolio) : Db :=
  if storeOk then fun u => if u = user_id then some doc else db u else db

/-- `_refresh_portfolio_prices(user_id, portfolio, manual)`: folds the
holdings loop, builds `updated_portfolio`, calls `_update_portfolio`
(whose failures are swallowed), and returns the success dict.  `priceOf`
is the `_get_current_price` collaborator (it never raises: `None` models
every fallback failing).  `refreshFoldStep` is one iteration's effect on
the `updated_holdings` / `total_value` / `total_pnl` accumulators. -/
def refreshFoldStep (priceOf : String → Option ℚ) (now : ℕ)
    (acc : List Holding × ℚ × ℚ) (h : Holding) : List Holding × ℚ × ℚ :=
  let step := refreshHoldingStep now (priceOf h.symbol) h
  (acc.1 ++ [step.1], acc.2.1 + step.2.1, acc.2.2 + step.2.2)

def refreshPortfolioPrices (priceOf : String → Option ℚ) (now : ℕ)
    (storeOk : Bool) (db : Db) (user_id : String) (portfolio : StoredPortfolio)
    (manual : Bool) : RefreshResult × Db :=
  let acc := portfolio.holdings.foldl (refreshFoldStep priceOf now) ([], 0, 0)
  let updated : StoredPortfolio :=
    { user_id := user_id
      holdings := acc.1
      total_value := acc.2.1
      total_pnl := acc.2.2
      last_refreshed := now
      refresh_type := if manual then "manual" else "automatic" }
  let db' := updatePortfolioStore storeOk db user_id updated
  (.ok acc.1.length acc.2.1 acc.2.2 now, db')

/-- The per-run counters dict of `refresh_all_portfolios`. -/
structure RefreshRunResult where
  total_users : ℕ
  successful : ℕ
  failed : ℕ
  errors : List (String × String)
  deriving Repr, DecidableEq

/-- One iteration of the user loop in `refresh_all_portfolios`:
`_get_user_portfolio` returning no document (falsy) skips the user
entirely; otherwise the refresh result is tallied into
`successful`/`failed` and `errors`. -/
def refreshAllStep (priceOf : String → Option ℚ) (now : ℕ) (storeOk : Bool)
    (acc : RefreshRunResult × Db) (u : String) : RefreshRunResult × Db :=
  match acc.2 u with
  | none => acc
  | some portfolio =>
    let step := refreshPortfolioPrices priceOf now storeOk acc.2 u portfolio false
    if step.1.isSuccess then
      ({ acc.1 with successful := acc.1.successful + 1 }, step.2)
    else
      ({ acc.1 with failed := acc.1.failed + 1
                    errors := acc.1.errors ++ [(u, step.1.errMsg)] }, step.2)

/-- `refresh_all_portfolios`: enumerate users, loop with per-user
isolation, return the counters (the final system-timestamp write does not
affect them).  `users` is what `_get_all_users_with_portfolios` returned;
`db` is the `portfolios` collection at the start of the run. -/
def refreshAllPortfolios (priceOf : String → Option ℚ) (now : ℕ)
    (storeOk : Bool) (users : List String) (db : Db) :
    RefreshRunResult × Db :=
  users.foldl (refreshAllStep priceOf now storeOk)
    ({ total_users := users.length, successful := 0, failed := 0, errors := [] }, db)

end Refresh

namespace Screening

/-- A catalog record value: a number, a string, or a nested dict (the
shapes `_get_mock_stocks` produces and `_check_field_condition` walks). -/
inductive JsonVal where
  | num : ℚ → JsonVal
  | str : String → JsonVal
  | obj : List (String × JsonVal) → JsonVal

/-- `value[key]` after a successful `key in value` on a dict; `none` for a
missing key.  On a non-dict value the Python `key in value` / `value[key]`
pair either returns `False` or raises `TypeError` (caught by the
function's `except`, yielding `False`), so both are `none` here. -/
def lookupField : JsonVal → String → Option JsonVal
  | .obj fields, k => (fields.find? (fun p => p.1 = k)).map Prod.snd
  | .num _, _ => none
  | .str _, _ => none

/-- Python `field.split('.')` on the character list: splitting on every
`'.'`, so `"a.b"` gives `["a", "b"]` and `""` gives `[""]`. -/
def splitDotAux : List Char → List (List Char)
  | [] => [[]]
  | c :: rest =>
    let r := splitDotAux rest
    if c = '.' then [] :: r
    else
      match r with
      | s :: ss => (c :: s) :: ss
      | [] => [[c]]

/-- Python `field.split('.')`. -/
def splitDot (s : String) : List String :=
  (splitDotAux s.data).map (fun cs => String.mk cs)

/-- The `for key in field.split('.')` navigation loop of
`_check_field_condition`. -/
def navigate (v : JsonVal) : List String → Option JsonVal
  | [] => some v
  | k :: ks =>
    match lookupField v k with
    | some v' => navigate v' ks
    | none => none

/-- One operator/threshold pair in a query condition dict:
`$gte`/`$lte` carry a number, `$in`/`$nin` a list of strings (the only
shapes the query adapters build). -/
inductive MongoOp where
  | gte : ℚ → MongoOp
  | lte : ℚ → MongoOp
  | isIn : List String → MongoOp
  | nin : List String → MongoOp
  deriving Repr, DecidableEq

/-- Python `value < threshold` for a numeric threshold: comparing a
non-number raises `TypeError` (`none`), which the enclosing `except`
turns into a non-match. -/
def pyLtNum : JsonVal → ℚ → Option Bool
  | .num v, q => some (decide (v < q))
  | .str _, _ => none
  | .obj _, _ => none

/-- Python `value > threshold` for a numeric threshold. -/
def pyGtNum : JsonVal → ℚ → Option Bool
  | .num v, q => some (decide (v > q))
  | .str _, _ => none
  | .obj _, _ => none

/-- Python `value in threshold` for a list-of-strings threshold: `==`
between a string element and a non-string value is `False`, never an
error. -/
def pyInStrList (v : JsonVal) (ts : List String) : Bool :=
  match v with
  | .str s => s ∈ ts
  | .num _ => false
  | .obj _ => false

/-- The operator loop of `_check_field_condition` on the navigated value:
`some false` models an early `return False`, `none` a raised `TypeError`
(the `except` maps it to `False`), `some true` survival of all checks. -/
def checkOps (v : JsonVal) : List MongoOp → Option Bool
  | [] => some true
  | op :: ops =>
    match op with
    | .gte q =>
      match pyLtNum v q with
      | none => none
      | some true => some false
      | some false => checkOps v ops
    | .lte q =>
      match pyGtNum v q with
      | none => none
      | some true => some false
      | some false => checkOps v ops
    | .isIn ts => if pyInStrList v ts then checkOps v ops else some false
    | .nin ts => if pyInStrList v ts then some false else checkOps v ops

/-- `_check_field_condition(item, field, condition)`. -/
def checkFieldCondition (item : JsonVal) (field : String)
    (cond : List MongoOp) : Bool :=
  match navigate item (splitDot field) with
  | none => false
  | some v =>
    match checkOps v cond with
    | none => false
    | some b => b

/-- `_apply_stock_filters(stock, query)` (and the identical
`_apply_mf_filters`): every field condition must pass; the first failing
one returns `False`. -/
def applyStockFilters (stock : JsonVal) :
    List (String × List MongoOp) → Bool
  | [] => true
  | (field, cond) :: rest =>
    if checkFieldCondition stock field cond then applyStockFilters stock rest
    else false

/-- `_execute_screening`'s filter loop over the catalog. -/
def executeScreening (catalog : List JsonVal)
    (query : List (String × List MongoOp)) : List JsonVal :=
  catalog.filter (fun stock => applyStockFilters stock query)

/-- The named screening inputs `_build_screening_query` reads.  A numeric
filter is applied when its key is present (`'pe_ratio_min' in filters`);
the sector lists additionally require Python truthiness (non-empty). -/
structure ScreeningFilters where
  pe_ratio_min : Option ℚ := none
  pe_ratio_max : Option ℚ := none
  pb_ratio_min : Option ℚ := none
  pb_ratio_max : Option ℚ := none
  roe_min : Option ℚ := none
  roe_max : Option ℚ := none
  roce_min : Option ℚ := none
  market_cap_min : Option ℚ := none
  market_cap_max : Option ℚ := none
  price_min : Option ℚ := none
  price_max : Option ℚ := none
  sectors : Option (List String) := none
  exclude_sectors : Option (List String) := none
  deriving Repr, DecidableEq

/-- `'path' in query`. -/
def hasKey (q : List (String × List MongoOp)) (k : String) : Bool :=
  q.any (fun p => p.1 = k)

/-- `query[path] = {...}`: dict assignment replaces the value at an
existing key in place, otherwise appends (insertion order). -/
def setKey (q : List (String × List MongoOp)) (k : String)
    (ops : List MongoOp) : List (String × List MongoOp) :=
  if hasKey q k then q.map (fun p => if p.1 = k then (k, ops) else p)
  else q ++ [(k, ops)]

/-- `query[path]['$lte'] = x`: appends the operator to the existing
condition dict at `path`. -/
def addOp (q : List (String × List MongoOp)) (k : String) (op : MongoOp) :
    List (String × List MongoOp) :=
  q.map (fun p => if p.1 = k then (k, p.2 ++ [op]) else p)

/-- One min/max pair of `_build_screening_query`: the `min` branch
plain-assigns `{'$gte': lo}`; the `max` branch merges `'$lte'` into an
existing condition at the path, else assigns `{'$lte': hi}`. -/
def addRange (q : List (String × List MongoOp)) (k : String)
    (lo hi : Option ℚ) : List (String × List MongoOp) :=
  let q1 := match lo with
    | some x => setKey q k [.gte x]
    | none => q
  match hi with
  | some x => if hasKey q1 k then addOp q1 k (.lte x) else setKey q1 k [.lte x]
  | none => q1

/-- `_build_screening_query(filters)`, clause by clause in source order.
Note the last two clauses: `sectors` assigns `{'$in': ...}` and
`exclude_sectors` then plain-assigns `{'$nin': ...}` to the same path,
replacing rather than merging. -/
def buildScreeningQuery (f : ScreeningFilters) :
    List (String × List MongoOp) :=
  let q : List (String × List MongoOp) := []
  let q := addRange q "fundamental_data.pe_ratio" f.pe_ratio_min f.pe_ratio_max
  let q := addRange q "fundamental_data.pb_ratio" f.pb_ratio_min f.pb_ratio_max
  let q := addRange q "fundamental_data.roe" f.roe_min f.roe_max
  let q := match f.roce_min with
    | some x => setKey q "fundamental_data.roce" [.gte x]
    | none => q
  let q := addRange q "basic_info.market_cap" f.market_cap_min f.market_cap_max
  let q := addRange q "price_data.current_price" f.price_min f.price_max
  let q := match f.sectors with
    | some ss => if ss ≠ [] then setKey q "basic_info.sector" [.isIn ss] else q
    | none => q
  let q := match f.exclude_sectors with
    | some es => if es ≠ [] then setKey q "basic_info.sector" [.nin es] else q
    | none => q
  q

end Screening

namespace Portfolio

/-- A broker (FYERS) record for isin `X`, last updated at time 1. -/
def secBroker : Security :=
  { symbol := "RELIANCE", name := "Reliance Industries", quantity := 10
    avg_price := 100, current_price := 110, market_value := 1100
    pnl := 100, pnl_percentage := 10, security_type := "STOCK"
    isin := some "X", source := "FYERS", last_updated := some 1 }

/-- A manual record for the same isin `X`, last updated later, at time 2. -/
def secManual : Security :=
  { symbol := "RELIANCE", name := "Reliance Industries", quantity := 7
    avg_price := 90, current_price := 110, market_value := 770
    pnl := 140, pnl_percentage := 22, security_type := "STOCK"
    isin := some "X", source := "MANUAL", last_updated := some 2 }

/-- A no-ISIN manual record with lower-case symbol `abc`. -/
def secLower : Security :=
  { symbol := "abc", name := "Abc Ltd", quantity := 3
    avg_price := 50, current_price := 60, market_value := 180
    pnl := 30, pnl_percentage := 20, security_type := "STOCK"
    isin := none, source := "MANUAL", last_updated := some 1 }

/-- The same holding reported with upper-case symbol `ABC`, no ISIN. -/
def secUpper : Security :=
  { symbol := "ABC", name := "Abc Ltd", quantity := 3
    avg_price := 50, current_price := 60, market_value := 180
    pnl := 30, pnl_percentage := 20, security_type := "STOCK"
    isin := none, source := "MANUAL", last_updated := some 2 }

theorem mergeSecurities_eq_or (a b : Security) :
    mergeSecurities a b = a ∨ mergeSecurities a b = b := by
  unfold mergeSecurities
  split
  · exact Or.inr rfl
  · split
    · split
      · exact Or.inr rfl
      · exact Or.inl rfl
    · exact Or.inl rfl

theorem groupInsert_fst_mem (acc : List (String × Security)) (s : Security)
    (hk : acc.any (fun p => p.1 = secKey s) = true) :
    (groupInsert acc s).map Prod.fst = acc.map Prod.fst := by
  unfold groupInsert
  rw [if_pos hk, List.map_map]
  apply List.map_congr_left
  intro q _
  by_cases hqs : q.1 = secKey s <;> simp [hqs]

theorem groupInsert_fst_new (acc : List (String × Security)) (s : Security)
    (hk : ¬ acc.any (fun p => p.1 = secKey s) = true) :
    (groupInsert acc s).map Prod.fst = acc.map Prod.fst ++ [secKey s] := by
  unfold groupInsert
  rw [if_neg hk]
  simp

theorem groupInsert_keys (acc : List (String × Security)) (s : Security)
    (h2 : ∀ p ∈ acc, secKey p.2 = p.1) :
    ∀ p ∈ groupInsert acc s, secKey p.2 = p.1 := by
  intro p hp
  unfold groupInsert at hp
  by_cases hk : acc.any (fun q => q.1 = secKey s) = true
  · rw [if_pos hk] at hp
    obtain ⟨q, hq, rfl⟩ := List.mem_map.mp hp
    by_cases hqs : q.1 = secKey s
    · rw [if_pos hqs]
      rcases mergeSecurities_eq_or q.2 s with hm | hm <;> rw [hm]
      · exact h2 q hq
      · exact hqs.symm
    · rw [if_neg hqs]
      exact h2 q hq
  · rw [if_neg hk] at hp
    rcases List.mem_append.mp hp with hq | hq
    · exact h2 p hq
    · rcases List.mem_singleton.mp hq with rfl
      rfl

theorem groupInsert_nodup (acc : List (String × Security)) (s : Security)
    (h1 : (acc.map Prod.fst).Nodup) :
    ((groupInsert acc s).map Prod.fst).Nodup := by
  by_cases hk : acc.any (fun p => p.1 = secKey s) = true
  · rw [groupInsert_fst_mem acc s hk]
    exact h1
  · rw [groupInsert_fst_new acc s hk]
    rw [List.nodup_append]
    refine ⟨h1, List.nodup_singleton _, ?_⟩
    intro a ha hb
    rcases List.mem_singleton.mp hb with rfl
    obtain ⟨q, hq, hqk⟩ := List.mem_map.mp ha
    exact hk (List.any_eq_true.mpr ⟨q, hq, by simp [hqk]⟩)

theorem groupInsert_length (acc : List (String × Security)) (s : Security) :
    (groupInsert acc s).length ≤ acc.length + 1 := by
  unfold groupInsert
  split
  · simp
  · simp

theorem foldl_groupInsert_spec (l : List Security) :
    ∀ acc : List (String × Security),
      (acc.map Prod.fst).Nodup → (∀ p ∈ acc, secKey p.2 = p.1) →
      ((l.foldl groupInsert acc).map Prod.fst).Nodup ∧
      (∀ p ∈ l.foldl groupInsert acc, secKey p.2 = p.1) ∧
      (l.foldl groupInsert acc).length ≤ acc.length + l.length := by
  induction l with
  | nil =>
    intro acc h1 h2
    exact ⟨h1, h2, by simp⟩
  | cons s rest ih =>
    intro acc h1 h2
    obtain ⟨g1, g2, g3⟩ := ih (groupInsert acc s)
      (groupInsert_nodup acc s h1) (groupInsert_keys acc s h2)
    refine ⟨g1, g2, ?_⟩
    calc (rest.foldl groupInsert (groupInsert acc s)).length
        ≤ (groupInsert acc s).length + rest.length := g3
      _ ≤ (acc.length + 1) + rest.length :=
          Nat.add_le_add_right (groupInsert_length acc s) _
      _ = acc.length + (s :: rest).length := by simp; omega

/-- C1: the claim fails on the code at its own example.  Merging a BROKER
(FYERS) record updated at T1 = 1 with a MANUAL record of the same isin
updated at T2 = 2 keeps the MANUAL record, although FYERS has the strictly
higher source priority: the recency test in `_merge_securities` is not
guarded by priority equality, contradicting the code's own comment. -/
theorem merge_recency_overrides_priority :
    sourcePriority secBroker.source > sourcePriority secManual.source ∧
    mergeSecurities secBroker secManual = secManual ∧
    deduplicateSecurities [secBroker, secManual] = [secManual] :=
  ⟨by decide, rfl, rfl⟩

/-- C2: consolidation is not permutation-invariant.  The two orderings of
the same two records (a FYERS record updated at 1, a MANUAL record updated
at 2) produce different outputs, so the result is not determined by the
members' (priority, last_updated) pairs alone. -/
theorem dedup_not_permutation_invariant :
    List.Perm [secBroker, secManual] [secManual, secBroker] ∧
    deduplicateSecurities [secBroker, secManual] = [secManual] ∧
    deduplicateSecurities [secManual, secBroker] = [secBroker] :=
  ⟨List.Perm.swap secManual secBroker [], rfl, rfl⟩

/-- C3 counterexample: two no-ISIN records whose symbols differ only in
letter case do not share a key and are both kept, so the claimed
upper-cased-symbol identity key is refuted, and under that claimed key the
output would not even have distinct keys. -/
theorem dedup_symbols_case_sensitive :
    secLower.isin = none ∧ secUpper.isin = none ∧
    secLower.symbol.data.map Char.toUpper = secUpper.symbol.data.map Char.toUpper ∧
    secLower.symbol ≠ secUpper.symbol ∧
    deduplicateSecurities [secLower, secUpper] = [secLower, secUpper] :=
  ⟨rfl, rfl, by decide, by decide, rfl⟩

/-- A raw record providing no field at all: no symbol, no isin, no
quantity.  The claimed MissingField failure should fire here. -/
def emptyRawRecord : RawRecord :=
  { symbol := none, name := none, quantity := .absent, avg_price := .absent
    current_price := .absent, market_value := .absent, pnl := .absent
    pnl_percentage := .absent, security_type := none, isin := none }

/-- A record whose quantity is present but unparsable by `float()`. -/
def badQuantityRecord : RawRecord :=
  { symbol := some "RELIANCE", name := none, quantity := .bad
    avg_price := .absent, current_price := .absent, market_value := .absent
    pnl := .absent, pnl_percentage := .absent, security_type := none
    isin := none }

theorem toFloat_eq_none (f : RawField) : toFloat f = none ↔ f = .bad := by
  cases f <;> simp [toFloat]

theorem toFloat_absent_val {f : RawField} {q : ℚ} (h : toFloat f = some q)
    (habs : f = .absent) : q = 0 := by
  subst habs
  simpa [toFloat] using h.symm

theorem convertToSecurity_none_iff (source : String) (now : ℕ)
    (item : RawRecord) :
    convertToSecurity source now item = none ↔
      (item.quantity = .bad ∨ item.avg_price = .bad ∨ item.current_price = .bad ∨
       item.market_value = .bad ∨ item.pnl = .bad ∨ item.pnl_percentage = .bad) := by
  simp only [← toFloat_eq_none]
  unfold convertToSecurity
  rcases hq : toFloat item.quantity with _ | q <;>
  rcases ha : toFloat item.avg_price with _ | a <;>
  rcases hc : toFloat item.current_price with _ | c <;>
  rcases hm : toFloat item.market_value with _ | m <;>
  rcases hp : toFloat item.pnl with _ | p <;>
  rcases hpp : toFloat item.pnl_percentage with _ | pp <;>
  simp [hq, ha, hc, hm, hp, hpp]

theorem convertToSecurity_defaults (source : String) (now : ℕ)
    (item : RawRecord) (sec : Security)
    (h : convertToSecurity source now item = some sec) :
    (item.quantity = .absent → sec.quantity = 0) ∧
    (item.avg_price = .absent → sec.avg_price = 0) ∧
    (item.current_price = .absent → sec.current_price = 0) ∧
    (item.market_value = .absent → sec.market_value = 0) ∧
    (item.pnl = .absent → sec.pnl = 0) ∧
    (item.pnl_percentage = .absent → sec.pnl_percentage = 0) ∧
    sec.symbol = item.symbol.getD "" ∧
    sec.security_type = item.security_type.getD "STOCK" ∧
    sec.isin = item.isin ∧ sec.source = source ∧
    sec.last_updated = some now := by
  unfold convertToSecurity at h
  rcases hq : toFloat item.quantity with _ | q <;> rw [hq] at h <;>
  rcases ha : toFloat item.avg_price with _ | a <;> rw [ha] at h <;>
  rcases hc : toFloat item.current_price with _ | c <;> rw [hc] at h <;>
  rcases hm : toFloat item.market_value with _ | m <;> rw [hm] at h <;>
  rcases hp : toFloat item.pnl with _ | p <;> rw [hp] at h <;>
  rcases hpp : toFloat item.pnl_percentage with _ | pp <;> rw [hpp] at h <;>
  simp at h
  subst h
  refine ⟨?_, ?_, ?_, ?_, ?_, ?_, rfl, rfl, rfl, rfl, rfl⟩ <;> intro habs
  · exact toFloat_absent_val hq habs
  · exact toFloat_absent_val ha habs
  · exact toFloat_absent_val hc habs
  · exact toFloat_absent_val hm habs
  · exact toFloat_absent_val hp habs
  · exact toFloat_absent_val hpp habs

/-- C4 counterexample: a record providing neither symbol nor isin nor
quantity converts successfully, with every field defaulted, instead of
failing with MissingField as the claim requires. -/
theorem convert_empty_record_succeeds :
    convertFyersToSecurity 100 emptyRawRecord =
      some { symbol := "", name := "", quantity := 0, avg_price := 0
             current_price := 0, market_value := 0, pnl := 0
             pnl_percentage := 0, security_type := "STOCK", isin := none
             source := "FYERS", last_updated := some 100 } := rfl

/-- C4 (amended): a per-source converter fails exactly when some numeric
field is present but unparsable (`float()` raises); absence never makes it
fail — an absent numeric field defaults to 0, an absent symbol to `""`,
`security_type` to `"STOCK"` and `isin` to `None` — and an unparsable
numeric field does not default to 0 but aborts the whole record. -/
theorem convertToSecurity_spec (source : String) (now : ℕ) (item : RawRecord) :
    (convertToSecurity source now item = none ↔
      (item.quantity = .bad ∨ item.avg_price = .bad ∨ item.current_price = .bad ∨
       item.market_value = .bad ∨ item.pnl = .bad ∨ item.pnl_percentage = .bad)) ∧
    ∀ sec, convertToSecurity source now item = some sec →
      ((item.quantity = .absent → sec.quantity = 0) ∧
       (item.avg_price = .absent → sec.avg_price = 0) ∧
       (item.current_price = .absent → sec.current_price = 0) ∧
       (item.market_value = .absent → sec.market_value = 0) ∧
       (item.pnl = .absent → sec.pnl = 0) ∧
       (item.pnl_percentage = .absent → sec.pnl_percentage = 0) ∧
       sec.symbol = item.symbol.getD "" ∧
       sec.security_type = item.security_type.getD "STOCK" ∧
       sec.isin = item.isin ∧ sec.source = source ∧
       sec.last_updated = some now) :=
  ⟨convertToSecurity_none_iff source now item,
   fun sec h => convertToSecurity_defaults source now item sec h⟩

/-- Witness for the amended C4: the record with an unparsable quantity is
rejected, through the theorem's failure characterization. -/
theorem convertToSecurity_spec_witness :
    convertToSecurity "FYERS" 100 badQuantityRecord = none :=
  (convertToSecurity_spec "FYERS" 100 badQuantityRecord).1.mpr (Or.inl rfl)

/-- C3 (amended): with the key the code actually uses — `isin` when
non-`None` and non-empty, else the raw case-sensitive `symbol` — the
deduplicated output has pairwise-distinct keys and is never longer than
the input. -/
theorem dedup_nodup_keys_and_length (securities : List Security) :
    ((deduplicateSecurities securities).map secKey).Nodup ∧
    (deduplicateSecurities securities).length ≤ securities.length := by
  obtain ⟨h1, h2, h3⟩ := foldl_groupInsert_spec securities []
    (by simp) (by simp)
  constructor
  · unfold deduplicateSecurities
    rw [List.map_map]
    have heq : (securities.foldl groupInsert []).map (secKey ∘ Prod.snd) =
        (securities.foldl groupInsert []).map Prod.fst :=
      List.map_congr_left (fun p hp => h2 p hp)
    rw [heq]
    exact h1
  · unfold deduplicateSecurities
    rw [List.length_map]
    simpa using h3

end Portfolio

namespace Refresh

/-- A holding whose price fetch will succeed (symbol `AAA`). -/
def holdA : Holding :=
  { symbol := "AAA", quantity := 2, avg_price := 50, current_price := 55
    current_value := 110, total_pnl := 10, pnl_percentage := 10
    last_updated := 1 }

/-- A holding whose price fetch will fail (symbol `BBB`). -/
def holdB : Holding :=
  { symbol := "BBB", quantity := 1, avg_price := 100, current_price := 90
    current_value := 90, total_pnl := -10, pnl_percentage := -10
    last_updated := 1 }

/-- A zero-quantity holding with positive `avg_price`, the C9 scenario. -/
def holdZero : Holding :=
  { symbol := "ZZZ", quantity := 0, avg_price := 5, current_price := 10
    current_value := 0, total_pnl := -3, pnl_percentage := -6
    last_updated := 50 }

/-- A price provider that knows only `AAA`. -/
def cexPriceOf : String → Option ℚ := fun s => if s = "AAA" then some 60 else none

/-- A two-holding portfolio: one fetch succeeds, one fails. -/
def cexPortfolio : StoredPortfolio :=
  { user_id := "u1", holdings := [holdA, holdB], total_value := 200
    total_pnl := 0, last_refreshed := 1, refresh_type := "manual" }

/-- An empty `portfolios` collection. -/
def emptyDb : Db := fun _ => none

/-- C5 counterexample: one holding's price fetch fails and the persistence
write also fails (`storeOk = false`, the collection is left unchanged),
yet the user-level result is reported successful — `_update_portfolio`
swallows the write failure, refuting "failure iff persistence fails". -/
theorem refresh_success_despite_persistence_failure :
    priceTruthy (cexPriceOf "BBB") = false ∧
    (refreshPortfolioPrices cexPriceOf 100 false emptyDb "u1" cexPortfolio true).1.isSuccess = true ∧
    (refreshPortfolioPrices cexPriceOf 100 false emptyDb "u1" cexPortfolio true).2 "u1" = none :=
  ⟨rfl, rfl, rfl⟩

theorem refreshFold_spec (priceOf : String → Option ℚ) (now : ℕ)
    (hs : List Holding) :
    ∀ acc : List Holding × ℚ × ℚ,
      hs.foldl (refreshFoldStep priceOf now) acc =
        (acc.1 ++ hs.map (fun h => (refreshHoldingStep now (priceOf h.symbol) h).1),
         acc.2.1 + (hs.map (fun h => (refreshHoldingStep now (priceOf h.symbol) h).2.1)).sum,
         acc.2.2 + (hs.map (fun h => (refreshHoldingStep now (priceOf h.symbol) h).2.2)).sum) := by
  induction hs with
  | nil => intro acc; simp
  | cons h rest ih =>
    intro acc
    rw [List.foldl_cons, ih]
    simp [refreshFoldStep]
    constructor
    · ring
    · ring

/-- C5 (amended): a failed (or falsy) price fetch leaves that holding's
previous values unchanged while every other holding is still processed,
but the user-level result is reported successful unconditionally: a
persistence failure is caught and only logged inside `_update_portfolio`,
so it never marks the user's refresh as failed.  When the write succeeds
the stored document holds the per-holding updates for all holdings. -/
theorem refreshPortfolioPrices_isolation (priceOf : String → Option ℚ)
    (now : ℕ) (storeOk : Bool) (db : Db) (uid : String)
    (p : StoredPortfolio) (manual : Bool) :
    (refreshPortfolioPrices priceOf now storeOk db uid p manual).1.isSuccess = true ∧
    (∀ h : Holding, priceTruthy (priceOf h.symbol) = false →
      refreshHoldingStep now (priceOf h.symbol) h = (h, h.current_value, h.total_pnl)) ∧
    (storeOk = true →
      (refreshPortfolioPrices priceOf now storeOk db uid p manual).2 uid =
        some { user_id := uid
               holdings := p.holdings.map
                 (fun h => (refreshHoldingStep now (priceOf h.symbol) h).1)
               total_value := (p.holdings.map
                 (fun h => (refreshHoldingStep now (priceOf h.symbol) h).2.1)).sum
               total_pnl := (p.holdings.map
                 (fun h => (refreshHoldingStep now (priceOf h.symbol) h).2.2)).sum
               last_refreshed := now
               refresh_type := if manual then "manual" else "automatic" }) := by
  refine ⟨rfl, ?_, ?_⟩
  · intro h hf
    unfold refreshHoldingStep
    rw [hf]
    simp
  · intro hs
    subst hs
    unfold refreshPortfolioPrices
    rw [refreshFold_spec]
    simp [updatePortfolioStore]

/-- Witness for the amended C5: at the concrete two-holding portfolio with
one failing fetch and a succeeding write, the result is successful, the
failing holding is returned unchanged, and a document is stored. -/
theorem refreshPortfolioPrices_isolation_witness :
    (refreshPortfolioPrices cexPriceOf 100 true emptyDb "u1" cexPortfolio false).1.isSuccess = true ∧
    refreshHoldingStep 100 (cexPriceOf "BBB") holdB = (holdB, holdB.current_value, holdB.total_pnl) ∧
    (refreshPortfolioPrices cexPriceOf 100 true emptyDb "u1" cexPortfolio false).2 "u1" ≠ none := by
  have hiso := refreshPortfolioPrices_isolation cexPriceOf 100 true emptyDb "u1" cexPortfolio false
  refine ⟨hiso.1, hiso.2.1 holdB rfl, ?_⟩
  rw [hiso.2.2 rfl]
  simp

/-- C9 counterexample: for the zero-quantity holding with positive
`avg_price` and a successful fetch of price 7, the handler appends the
already-mutated dict: the fresh price is kept (`current_price` becomes 7,
not the previous 10) and `total_pnl` is overwritten, while only
`pnl_percentage` and `last_updated` stay stale — the previous values are
not all retained and the fetched price is not discarded. -/
theorem holding_zero_quantity_partial_mutation :
    (refreshHoldingStep 100 (some 7) holdZero).1 =
      { holdZero with current_price := 7, current_value := 0, total_pnl := 0 } ∧
    (refreshHoldingStep 100 (some 7) holdZero).1 ≠ holdZero ∧
    (refreshHoldingStep 100 (some 7) holdZero).1.pnl_percentage = holdZero.pnl_percentage ∧
    (refreshHoldingStep 100 (some 7) holdZero).1.last_updated = holdZero.last_updated := by
  refine ⟨?_, ?_, ?_, ?_⟩ <;>
    norm_num [refreshHoldingStep, holdZero, priceTruthy, Holding.mk.injEq]

/-- C9 (amended): when a holding has `quantity = 0`, `avg_price > 0` and a
truthy fetched price, the `pnl_percentage` division raises and the
per-holding handler catches it — but the dict was already mutated in
place, so `current_price` takes the fresh price and `current_value` and
`total_pnl` become 0, while `pnl_percentage` and `last_updated` keep
their previous values; the totals also absorb the fresh zeros. -/
theorem refreshHoldingStep_zero_quantity (now : ℕ) (p : ℚ) (h : Holding)
    (hp : p ≠ 0) (hq : h.quantity = 0) (ha : h.avg_price > 0) :
    refreshHoldingStep now (some p) h =
      ({ h with current_price := p, current_value := 0, total_pnl := 0 }, 0, 0) := by
  unfold refreshHoldingStep
  have ht : priceTruthy (some p) = true := by simp [priceTruthy, hp]
  rw [ht]
  simp [hq, ha]

/-- Witness for the amended C9 at the concrete zero-quantity holding. -/
theorem refreshHoldingStep_zero_quantity_witness :
    refreshHoldingStep 100 (some 7) holdZero =
      ({ holdZero with current_price := 7, current_value := 0, total_pnl := 0 }, 0, 0) :=
  refreshHoldingStep_zero_quantity 100 7 holdZero (by norm_num) rfl
    (by norm_num [holdZero])

end Refresh

namespace Refresh

theorem countP_ext {α : Type} (p q : α → Bool) (l : List α)
    (h : ∀ a, p a = q a) : l.countP p = l.countP q := by
  induction l with
  | nil => rfl
  | cons a l ih => simp [List.countP_cons, h a, ih]

theorem refreshAllStep_db_none (priceOf : String → Option ℚ) (now : ℕ)
    (storeOk : Bool) (acc : RefreshRunResult × Db) (u : String) :
    ∀ v, (refreshAllStep priceOf now storeOk acc u).2 v = none ↔ acc.2 v = none := by
  intro v
  unfold refreshAllStep
  cases hu : acc.2 u with
  | none => rfl
  | some p =>
    simp only [refreshPortfolioPrices, RefreshResult.isSuccess, if_pos]
    unfold updatePortfolioStore
    cases storeOk with
    | false => simp
    | true =>
      simp only [if_pos]
      by_cases hv : v = u
      · subst hv
        simp [hu]
      · simp [hv]

theorem refreshAllStep_counts (priceOf : String → Option ℚ) (now : ℕ)
    (storeOk : Bool) (acc : RefreshRunResult × Db) (u : String) :
    (refreshAllStep priceOf now storeOk acc u).1.total_users = acc.1.total_users ∧
    (refreshAllStep priceOf now storeOk acc u).1.errors = acc.1.errors ∧
    (refreshAllStep priceOf now storeOk acc u).1.failed = acc.1.failed ∧
    (refreshAllStep priceOf now storeOk acc u).1.successful +
        (refreshAllStep priceOf now storeOk acc u).1.failed =
      acc.1.successful + acc.1.failed +
        (if (acc.2 u).isSome then 1 else 0) := by
  unfold refreshAllStep
  cases hu : acc.2 u with
  | none => simp
  | some p =>
    simp [refreshPortfolioPrices, RefreshResult.isSuccess]
    omega

theorem refreshAll_fold (priceOf : String → Option ℚ) (now : ℕ)
    (storeOk : Bool) (users : List String) :
    ∀ acc : RefreshRunResult × Db,
      (users.foldl (refreshAllStep priceOf now storeOk) acc).1.total_users =
        acc.1.total_users ∧
      (users.foldl (refreshAllStep priceOf now storeOk) acc).1.errors =
        acc.1.errors ∧
      (users.foldl (refreshAllStep priceOf now storeOk) acc).1.failed =
        acc.1.failed ∧
      (users.foldl (refreshAllStep priceOf now storeOk) acc).1.successful +
          (users.foldl (refreshAllStep priceOf now storeOk) acc).1.failed =
        acc.1.successful + acc.1.failed +
          users.countP (fun u => (acc.2 u).isSome) ∧
      (∀ v, (users.foldl (refreshAllStep priceOf now storeOk) acc).2 v = none ↔
        acc.2 v = none) := by
  induction users with
  | nil =>
    intro acc
    exact ⟨rfl, rfl, rfl, by simp, fun v => Iff.rfl⟩
  | cons u us ih =>
    intro acc
    obtain ⟨g1, g2, g3, g4, g5⟩ := ih (refreshAllStep priceOf now storeOk acc u)
    obtain ⟨s1, s2, s3, s4⟩ := refreshAllStep_counts priceOf now storeOk acc u
    have hdb := refreshAllStep_db_none priceOf now storeOk acc u
    have hcount : us.countP
        (fun x => ((refreshAllStep priceOf now storeOk acc u).2 x).isSome) =
        us.countP (fun x => (acc.2 x).isSome) := by
      apply countP_ext
      intro a
      have := hdb a
      cases h1 : (refreshAllStep priceOf now storeOk acc u).2 a <;>
        cases h2 : acc.2 a <;> simp_all
    rw [List.foldl_cons]
    refine ⟨g1.trans s1, g2.trans s2, g3.trans s3, ?_, ?_⟩
    · rw [g4, hcount, s4, List.countP_cons]
      have : (if (acc.2 u).isSome then 1 else 0) =
          (if (fun x => (acc.2 x).isSome) u = true then 1 else 0) := by
        by_cases h : (acc.2 u).isSome <;> simp [h]
      omega
    · intro v
      exact (g5 v).trans (hdb v)

/-- C10: in every run of `refresh_all_portfolios`,
`successful + failed ≤ total_users`, with strict inequality exactly when
some enumerated user's stored-portfolio lookup returns no document (such a
user is silently skipped), and the errors list has exactly one entry per
failed user, so skipped users contribute none. -/
theorem refreshAll_counts (priceOf : String → Option ℚ) (now : ℕ)
    (storeOk : Bool) (users : List String) (db : Db) :
    (refreshAllPortfolios priceOf now storeOk users db).1.total_users = users.length ∧
    (refreshAllPortfolios priceOf now storeOk users db).1.successful +
        (refreshAllPortfolios priceOf now storeOk users db).1.failed ≤
      (refreshAllPortfolios priceOf now storeOk users db).1.total_users ∧
    ((refreshAllPortfolios priceOf now storeOk users db).1.successful +
        (refreshAllPortfolios priceOf now storeOk users db).1.failed <
      (refreshAllPortfolios priceOf now storeOk users db).1.total_users ↔
      ∃ u ∈ users, db u = none) ∧
    (refreshAllPortfolios priceOf now storeOk users db).1.errors.length =
      (refreshAllPortfolios priceOf now storeOk users db).1.failed := by
  unfold refreshAllPortfolios
  obtain ⟨g1, g2, g3, g4, _⟩ := refreshAll_fold priceOf now storeOk users
    ({ total_users := users.length, successful := 0, failed := 0, errors := [] }, db)
  simp only at g1 g2 g3 g4
  rw [g3, Nat.add_zero] at g4
  rw [g1, g2, g3, g4]
  simp only [Nat.zero_add, Nat.add_zero, List.length_nil]
  have hle : users.countP (fun u => (db u).isSome) ≤ users.length :=
    List.countP_le_length _
  refine ⟨trivial, hle, ?_, trivial⟩
  rw [Nat.lt_iff_le_and_ne]
  simp only [hle, true_and]
  constructor
  · intro hne
    by_contra hno
    push_neg at hno
    apply hne
    rw [List.countP_eq_length]
    intro u hu
    have := hno u hu
    cases h : db u with
    | none => exact absurd h this
    | some p => simp
  · rintro ⟨u, hu, hnone⟩ heq
    have := List.countP_eq_length.mp heq u hu
    rw [hnone] at this
    simp at this

end Refresh

namespace Screening

/-- The first `_get_mock_stocks` record (decimals as exact rationals). -/
def stockReliance : JsonVal := .obj [
  ("symbol", .str "RELIANCE"),
  ("basic_info", .obj [
    ("name", .str "Reliance Industries"),
    ("sector", .str "Oil & Gas"),
    ("market_cap", .num 1500000000000)]),
  ("price_data", .obj [("current_price", .num (5001/2))]),
  ("fundamental_data", .obj [
    ("pe_ratio", .num (37/2)),
    ("pb_ratio", .num (21/10)),
    ("roe", .num (25/2)),
    ("roce", .num (76/5))])]

/-- A record with a `fundamental_data.pe_ratio` of 25.2. -/
def stockTCS : JsonVal := .obj [
  ("symbol", .str "TCS"),
  ("fundamental_data", .obj [("pe_ratio", .num (126/5))])]

/-- A record with no `fundamental_data` at all. -/
def stockNoFund : JsonVal := .obj [("symbol", .str "XYZ")]

/-- A screening request carrying both an include-sector list and an
exclude-sector list. -/
def cexSectorFilters : ScreeningFilters :=
  { sectors := some ["Banking"], exclude_sectors := some ["Technology"] }

/-- C7 counterexample: with both `sectors` and `exclude_sectors` given,
the built query holds only the `$nin` condition on `basic_info.sector` —
the `$in` set is discarded, and a record whose sector is in neither list
passes the filter although it violates the discarded in-condition. -/
theorem sector_in_condition_discarded :
    buildScreeningQuery cexSectorFilters =
      [("basic_info.sector", [.nin ["Technology"]])] ∧
    applyStockFilters stockReliance (buildScreeningQuery cexSectorFilters) = true ∧
    pyInStrList (.str "Oil & Gas") ["Banking"] = false :=
  ⟨rfl, rfl, rfl⟩

theorem checkOps_gte_lte (v a b : ℚ) :
    checkOps (.num v) [.gte a, .lte b] = (decide (a ≤ v) && decide (v ≤ b)) := by
  by_cases h1 : v < a
  · have ha : ¬ a ≤ v := not_le.mpr h1
    simp [checkOps, pyLtNum, pyGtNum, h1, ha]
  · have ha : a ≤ v := not_lt.mp h1
    by_cases h2 : v > b
    · have hb : ¬ v ≤ b := not_le.mpr h2
      simp [checkOps, pyLtNum, pyGtNum, h1, h2, ha, hb]
    · have hb : v ≤ b := not_lt.mp h2
      simp [checkOps, pyLtNum, pyGtNum, h1, h2, ha, hb]

/-- C7 (amended): `gte` and `lte` on the same numeric path do compose as a
conjunction — a min/max filter pair builds the single condition
`[$gte lo, $lte hi]`, which a navigated numeric value satisfies iff it
lies in the closed range; but when both `sectors` and `exclude_sectors`
are given (non-empty), the `$nin` assignment replaces the `$in` condition
on `basic_info.sector`, so the in-set is discarded rather than ANDed. -/
theorem query_composition_spec (a b v : ℚ) (item : JsonVal)
    (hnav : navigate item (splitDot "fundamental_data.pe_ratio") = some (.num v))
    (ss es : List String) (hss : ss ≠ []) (hes : es ≠ []) :
    buildScreeningQuery { pe_ratio_min := some a, pe_ratio_max := some b } =
      [("fundamental_data.pe_ratio", [.gte a, .lte b])] ∧
    (checkFieldCondition item "fundamental_data.pe_ratio" [.gte a, .lte b] = true ↔
      a ≤ v ∧ v ≤ b) ∧
    buildScreeningQuery { sectors := some ss, exclude_sectors := some es } =
      [("basic_info.sector", [.nin es])] := by
  refine ⟨rfl, ?_, ?_⟩
  · unfold checkFieldCondition
    rw [hnav]
    simp [checkOps_gte_lte]
  · simp [buildScreeningQuery, addRange, setKey, addOp, hasKey, hss, hes]

/-- Witness for the amended C7: the concrete pe-ratio range request 10–20
accepts the mock RELIANCE record (pe 18.5), and the concrete sector pair
builds the nin-only condition. -/
theorem query_composition_spec_witness :
    buildScreeningQuery { pe_ratio_min := some 10, pe_ratio_max := some 20 } =
      [("fundamental_data.pe_ratio", [.gte 10, .lte 20])] ∧
    checkFieldCondition stockReliance "fundamental_data.pe_ratio"
      [.gte 10, .lte 20] = true ∧
    buildScreeningQuery
        { sectors := some ["Banking"], exclude_sectors := some ["Technology"] } =
      [("basic_info.sector", [.nin ["Technology"]])] := by
  have h := query_composition_spec 10 20 (37/2 : ℚ) stockReliance rfl
    ["Banking"] ["Technology"] (by decide) (by decide)
  exact ⟨h.1, h.2.1.mpr (by norm_num), h.2.2⟩

/-- C8: a record is in the filtered result iff it is in the catalog and
every field path's conditions check out; a record missing a filtered path
(including a non-dict value partway along the dotted path, where Python
raises and the handler returns False) fails that path without error; and
an empty query matches every record. -/
theorem applyStockFilters_spec (stock : JsonVal)
    (query : List (String × List MongoOp)) :
    (∀ catalog : List JsonVal,
      stock ∈ executeScreening catalog query ↔
        stock ∈ catalog ∧ applyStockFilters stock query = true) ∧
    (applyStockFilters stock query = true ↔
      ∀ p ∈ query, checkFieldCondition stock p.1 p.2 = true) ∧
    (∀ field cond, navigate stock (splitDot field) = none →
      checkFieldCondition stock field cond = false) ∧
    applyStockFilters stock [] = true := by
  refine ⟨?_, ?_, ?_, rfl⟩
  · intro catalog
    unfold executeScreening
    rw [List.mem_filter]
  · induction query with
    | nil => simp [applyStockFilters]
    | cons p rest ih =>
      rcases p with ⟨f, c⟩
      by_cases hc : checkFieldCondition stock f c
      · simp [applyStockFilters, hc, ih]
      · simp [applyStockFilters, hc]
  · intro field cond hn
    unfold checkFieldCondition
    rw [hn]

/-- Witness for C8: the record with no `fundamental_data` fails the
pe-ratio condition without error, and every record matches the empty
query and appears in its filtered result. -/
theorem applyStockFilters_spec_witness :
    checkFieldCondition stockNoFund "fundamental_data.pe_ratio" [.lte 20] = false ∧
    applyStockFilters stockTCS [] = true ∧
    (stockTCS ∈ executeScreening [stockTCS] [] ↔
      stockTCS ∈ [stockTCS] ∧ applyStockFilters stockTCS [] = true) := by
  have h1 := applyStockFilters_spec stockNoFund
    [("fundamental_data.pe_ratio", [MongoOp.lte 20])]
  have h2 := applyStockFilters_spec stockTCS ([] : List (String × List MongoOp))
  exact ⟨h1.2.2.1 "fundamental_data.pe_ratio" [MongoOp.lte 20] rfl,
    h2.2.2.2, h2.1 [stockTCS]⟩

end Screening
